import Mathlib

/-!
Shallow embedding of `src/extensions/omni_var/omni_var.c` (the omni_var
Postgres extension): transactional and session-scoped named variables with
per-variable version chains unwound on subtransaction abort.

Modelling conventions:
* `Datum` is modelled as `Int`; deep-copying a by-reference datum into the
  transaction/session memory context preserves its value, so copy-on-store
  is value-identity here.
* `Oid` (type ids), `TransactionId` and `SubTransactionId` are `Nat`;
  `InvalidTransactionId` is `Option.none` where it matters.
* The C linked list `VariableValue* -> previous` is a Lean `List Cell`:
  the list head is `var->variable_value`, the tail is the `previous` chain,
  and `previous == NULL` is the empty tail.
* The Postgres hash table is an association list with unique keys
  (`hash_search` HASH_ENTER / HASH_FIND / HASH_REMOVE become
  `updateVar` / `lookupVar` / dropping an entry).
* A `Variable` entry present in a table always has a non-NULL
  `variable_value` in the C code; the `some []` branches below are
  unreachable and mirror the defensive structure only.
* When the incoming SQL value is null, the C code leaves the datum slot of
  the cell unspecified (for by-value types it stores the garbage datum, for
  by-reference types it does not write the slot at all); the slot is never
  read back because `get`/`get_session` test `isnull` first. We model the
  unspecified slot as `0`.
* `palloc` returns uninitialized memory. In `set_session`, the node
  allocated for an existing name never has its `previous` field assigned;
  we model that uninitialized field as an explicit `junk` argument (an
  arbitrary chain). Likewise the `subxactid` field is never assigned nor
  read for session variables; we model it as `0`.
-/

namespace OmniVar

/-- One `VariableValue` node of omni_var.c, without the `previous` pointer
(the chain is the enclosing list). -/
structure Cell where
  isnull : Bool
  oid : Nat
  subxactid : Nat
  value : Int
deriving DecidableEq, Repr

/-- A variable's version chain: head is `var->variable_value`, tail is the
`previous` chain. -/
abbrev Chain := List Cell

/-- A hash table mapping names to variables (association list with unique
keys in all states the code produces). -/
abbrev Store := List (String × Chain)

/-- `hash_search(tab, name, HASH_FIND, ...)`. -/
def lookupVar : Store → String → Option Chain
  | [], _ => none
  | (m, ch) :: rest, n => if m = n then some ch else lookupVar rest n

/-- Store `ch` under `n`, replacing the existing binding if present
(`hash_search` with HASH_ENTER followed by writing through the entry). -/
def updateVar : Store → String → Chain → Store
  | [], n, ch => [(n, ch)]
  | (m, c) :: rest, n, ch =>
      if m = n then (n, ch) :: rest else (m, c) :: updateVar rest n ch

/-- The datum slot written for an incoming argument; `none` is SQL null,
whose slot is unspecified in the C code and never read (modelled as 0). -/
def datumOf (arg : Option Int) : Int := arg.getD 0

/-- The cell written by `set` for subtransaction `sid`, type `oid` and
argument `arg` (lines 192-211 of omni_var.c). -/
def mkCell (sid oid : Nat) (arg : Option Int) : Cell :=
  { isnull := arg.isNone, oid := oid, subxactid := sid, value := datumOf arg }

/-- Core of `set` (omni_var.c lines 169-211), acting on the current table:
if the name is absent, a fresh single-cell chain is created; if present and
the stored head's subxactid is strictly below the current subtransaction id,
a new cell is pushed in front of the old chain; otherwise the head is
overwritten in place and its `previous` pointer is set to NULL. -/
def setVar (tab : Store) (n : String) (sid oid : Nat) (arg : Option Int) : Store :=
  updateVar tab n
    (match lookupVar tab n with
     | some (c :: rest) =>
        if c.subxactid < sid then mkCell sid oid arg :: c :: rest
        else [mkCell sid oid arg]
     | some [] => [mkCell sid oid arg] -- unreachable: chains are never empty
     | none => [mkCell sid oid arg])

/-- The per-variable unwind loop of `subtransaction_callback`
(omni_var.c lines 76-100): walk from the head while `subxactid >= S`;
the surviving suffix (first cell with `subxactid < S` onwards) becomes the
chain, and `[]` means every cell was invalidated. -/
def abortChain (S : Nat) (ch : Chain) : Chain :=
  ch.dropWhile (fun c => S ≤ c.subxactid)

/-- `subtransaction_callback` on SUBXACT_EVENT_ABORT_SUB (omni_var.c lines
62-101): every variable whose whole chain was written at ids >= S is
removed (HASH_REMOVE); otherwise its head becomes the surviving suffix. -/
def subtxAbort (tab : Store) (S : Nat) : Store :=
  tab.filterMap (fun v =>
    match abortChain S v.2 with
    | [] => none
    | c :: ch => some (v.1, c :: ch))

/-- The ereport ERROR conditions of omni_var.c. -/
inductive Err where
  | nullName
  | unresolvedType
  | typeMismatch (stored requested : Nat)
deriving DecidableEq, Repr

/-- Core of `get`/`get_session` once a table is resolved (omni_var.c lines
235-254 and 340-359): absent names yield the caller-supplied default; a
stored null yields SQL null; a type mismatch on a non-null value raises an
error naming both types; otherwise the stored datum is returned. -/
def getVar (tab : Store) (n : String) (oid : Nat) (dflt : Option Int) :
    Except Err (Option Int) :=
  match lookupVar tab n with
  | some (c :: _) =>
      if c.isnull then .ok none
      else if c.oid ≠ oid then .error (.typeMismatch c.oid oid)
      else .ok (some c.value)
  | some [] => .ok dflt -- unreachable: chains are never empty
  | none => .ok dflt

/-- The transactional globals: `last_used_txnid` (`none` is
InvalidTransactionId) and `current_tab` (an unbound NULL table is the empty
store: both are observably indistinguishable, since `get` bails before
touching the table whenever `last_used_txnid` does not match). -/
structure TxnState where
  last_used_txnid : Option Nat
  current_tab : Store
deriving DecidableEq, Repr

/-- Both stores: the transactional globals plus `session_tab`. -/
structure GlobalState where
  txn : TxnState
  session_tab : Store
deriving DecidableEq, Repr

/-- SQL-level `set(name, value)` (omni_var.c lines 134-218). `txnid` is
`GetTopTransactionId()`, `sid` is `GetCurrentSubTransactionId()`; `name`
and `oid` are `none` for a null name / uninferrable type. Returns the
result (the stored value, or SQL null when the argument was null) and the
updated globals. Callback registration only wires the lifecycle events
delivered below and is not otherwise modelled. -/
def set (st : TxnState) (txnid sid : Nat) (name : Option String)
    (oid : Option Nat) (arg : Option Int) : Except Err (Option Int) × TxnState :=
  match name with
  | none => (.error .nullName, st)
  | some n =>
    match oid with
    | none => (.error .unresolvedType, st)
    | some o =>
      let st1 : TxnState :=
        if st.last_used_txnid = some txnid then st
        else { last_used_txnid := some txnid, current_tab := [] }
      (.ok arg, { st1 with current_tab := setVar st1.current_tab n sid o arg })

/-- SQL-level `get(name, default)` (omni_var.c lines 220-255). `txnid` is
`GetTopTransactionIdIfAny()` (`none` when no transaction id was assigned);
the default is returned whenever it is invalid or differs from
`last_used_txnid`, or the name is absent. -/
def get (st : TxnState) (txnid : Option Nat) (name : Option String)
    (oid : Option Nat) (dflt : Option Int) : Except Err (Option Int) :=
  match name with
  | none => .error .nullName
  | some n =>
    match oid with
    | none => .error .unresolvedType
    | some o =>
      match txnid with
      | none => .ok dflt
      | some t =>
          if st.last_used_txnid ≠ some t then .ok dflt
          else getVar st.current_tab n o dflt

/-- Core of `set_session` (omni_var.c lines 280-324): an absent name gets a
fresh single-cell chain whose `previous` is NULL; an existing name gets a
freshly `palloc`ed head cell whose `previous` field is never assigned —
`junk` stands for that uninitialized field (whatever chain the stale bits
happen to denote). No subtransaction id is recorded (the field stays
unwritten; modelled 0). -/
def setSessionVar (tab : Store) (n : String) (oid : Nat) (arg : Option Int)
    (junk : Chain) : Store :=
  updateVar tab n
    (match lookupVar tab n with
     | some _ => mkCell 0 oid arg :: junk
     | none => [mkCell 0 oid arg])

/-- SQL-level `set_session(name, value)` (omni_var.c lines 262-325). -/
def set_session (g : GlobalState) (name : Option String) (oid : Option Nat)
    (arg : Option Int) (junk : Chain) : Except Err (Option Int) × GlobalState :=
  match name with
  | none => (.error .nullName, g)
  | some n =>
    match oid with
    | none => (.error .unresolvedType, g)
    | some o =>
      (.ok arg, { g with session_tab := setSessionVar g.session_tab n o arg junk })

/-- SQL-level `get_session(name, default)` (omni_var.c lines 327-360); a
NULL `session_tab` is the empty store, on which every lookup already falls
through to the default. -/
def get_session (g : GlobalState) (name : Option String) (oid : Option Nat)
    (dflt : Option Int) : Except Err (Option Int) :=
  match name with
  | none => .error .nullName
  | some n =>
    match oid with
    | none => .error .unresolvedType
    | some o => getVar g.session_tab n o dflt

/-- Subtransaction lifecycle events delivered to the callback. -/
inductive SubXactEvent where
  | abortSub (xact_id : Nat)
  | other
deriving DecidableEq, Repr

/-- `subtransaction_callback` (omni_var.c lines 59-105): only
SUBXACT_EVENT_ABORT_SUB does anything, and it only rewrites
`current_tab`. -/
def subtransaction_callback (st : TxnState) (ev : SubXactEvent) : TxnState :=
  match ev with
  | .abortSub S => { st with current_tab := subtxAbort st.current_tab S }
  | .other => st

/-- The callback, seen over both stores: it never mentions
`session_tab`. -/
def subtransaction_callback_g (g : GlobalState) (ev : SubXactEvent) : GlobalState :=
  { g with txn := subtransaction_callback g.txn ev }

/-- `get`, with the (unchanged) globals threaded through every branch: the
C function performs `hash_search(..., HASH_FIND, ...)` and reads only. -/
def get_full (g : GlobalState) (txnid : Option Nat) (name : Option String)
    (oid : Option Nat) (dflt : Option Int) :
    (Except Err (Option Int)) × GlobalState :=
  match name with
  | none => (.error .nullName, g)
  | some n =>
    match oid with
    | none => (.error .unresolvedType, g)
    | some o =>
      match txnid with
      | none => (.ok dflt, g)
      | some t =>
          if g.txn.last_used_txnid ≠ some t then (.ok dflt, g)
          else (getVar g.txn.current_tab n o dflt, g)

/-- `get_session`, with the (unchanged) globals threaded through every
branch. -/
def get_session_full (g : GlobalState) (name : Option String)
    (oid : Option Nat) (dflt : Option Int) :
    (Except Err (Option Int)) × GlobalState :=
  match name with
  | none => (.error .nullName, g)
  | some n =>
    match oid with
    | none => (.error .unresolvedType, g)
    | some o => (getVar g.session_tab n o dflt, g)

/-- Boolean strict descent of subtransaction ids along a chain. -/
def strictDesc : Chain → Bool
  | [] => true
  | [_] => true
  | a :: b :: rest => (b.subxactid < a.subxactid) && strictDesc (b :: rest)

/-- The TransactionalStore well-formedness of the data model: every stored
chain is non-empty and its subtransaction ids strictly decrease from the
head through the previous links. -/
def storeInv (tab : Store) : Bool :=
  tab.all (fun v => !v.2.isEmpty && strictDesc v.2)

/-! ### Helper lemmas about lookup / update / abort -/

theorem lookupVar_updateVar_self (tab : Store) (n : String) (ch : Chain) :
    lookupVar (updateVar tab n ch) n = some ch := by
  induction tab with
  | nil => simp [updateVar, lookupVar]
  | cons hd tl ih =>
      obtain ⟨m, c⟩ := hd
      by_cases h : m = n
      · simp [updateVar, lookupVar, h]
      · simp [updateVar, lookupVar, h, ih]

theorem lookupVar_updateVar_ne (tab : Store) (n m : String) (ch : Chain)
    (h : m ≠ n) : lookupVar (updateVar tab n ch) m = lookupVar tab m := by
  have hnm : ¬ n = m := fun e => h e.symm
  induction tab with
  | nil => simp [updateVar, lookupVar, hnm]
  | cons hd tl ih =>
      obtain ⟨m0, c⟩ := hd
      by_cases h0 : m0 = n
      · subst h0
        simp [updateVar, lookupVar, hnm]
      · simp only [updateVar, lookupVar, if_neg h0]
        by_cases h1 : m0 = m
        · simp [lookupVar, h1]
        · simp [lookupVar, h1, ih]

theorem lookupVar_subtxAbort_of_not_mem (tab : Store) (n : String) (S : Nat)
    (h : n ∉ tab.map Prod.fst) : lookupVar (subtxAbort tab S) n = none := by
  induction tab with
  | nil => simp [subtxAbort, lookupVar]
  | cons hd tl ih =>
      obtain ⟨m, ch⟩ := hd
      simp only [List.map_cons, List.mem_cons, not_or] at h
      obtain ⟨hmn, htl⟩ := h
      have hmn2 : ¬ m = n := fun e => hmn e.symm
      simp only [subtxAbort, List.filterMap_cons]
      cases habort : abortChain S ch with
      | nil => exact ih htl
      | cons c ch2 =>
          simp only [lookupVar, if_neg hmn2]
          exact ih htl

theorem lookupVar_setVar_self (tab : Store) (n : String) (sid o : Nat)
    (arg : Option Int) :
    ∃ rest, lookupVar (setVar tab n sid o arg) n = some (mkCell sid o arg :: rest) := by
  unfold setVar
  cases hl : lookupVar tab n with
  | none => exact ⟨[], lookupVar_updateVar_self ..⟩
  | some ch =>
      cases ch with
      | nil => exact ⟨[], lookupVar_updateVar_self ..⟩
      | cons c rest =>
          by_cases hlt : c.subxactid < sid
          · exact ⟨c :: rest, by simp [hlt, lookupVar_updateVar_self]⟩
          · exact ⟨[], by simp [hlt, lookupVar_updateVar_self]⟩

theorem lookupVar_setSessionVar_self (tab : Store) (n : String) (o : Nat)
    (arg : Option Int) (junk : Chain) :
    ∃ rest, lookupVar (setSessionVar tab n o arg junk) n = some (mkCell 0 o arg :: rest) := by
  unfold setSessionVar
  cases hl : lookupVar tab n with
  | none => exact ⟨[], lookupVar_updateVar_self ..⟩
  | some ch => exact ⟨junk, lookupVar_updateVar_self ..⟩

/-! ### Helper lemmas about the strict-descent invariant -/

theorem strictDesc_tail {c : Cell} {ch : Chain} (h : strictDesc (c :: ch) = true) :
    strictDesc ch = true := by
  cases ch with
  | nil => rfl
  | cons b rest =>
      simp only [strictDesc, Bool.and_eq_true] at h
      exact h.2

theorem strictDesc_dropWhile (p : Cell → Bool) {ch : Chain}
    (h : strictDesc ch = true) : strictDesc (ch.dropWhile p) = true := by
  induction ch with
  | nil => rfl
  | cons c tl ih =>
      by_cases hp : p c = true
      · rw [List.dropWhile_cons_of_pos hp]
        exact ih (strictDesc_tail h)
      · rw [List.dropWhile_cons_of_neg hp]
        exact h

theorem storeInv_lookup {tab : Store} {n : String} {ch : Chain}
    (h : storeInv tab = true) (hf : lookupVar tab n = some ch) :
    ch.isEmpty = false ∧ strictDesc ch = true := by
  induction tab with
  | nil => simp [lookupVar] at hf
  | cons hd tl ih =>
      obtain ⟨m, c⟩ := hd
      simp only [storeInv, List.all_cons, Bool.and_eq_true, Bool.not_eq_true',
        Bool.and_eq_true] at h
      simp only [lookupVar] at hf
      by_cases hm : m = n
      · rw [if_pos hm] at hf
        cases hf
        exact ⟨h.1.1, h.1.2⟩
      · rw [if_neg hm] at hf
        exact ih h.2 hf

theorem storeInv_updateVar {tab : Store} (n : String) {ch : Chain}
    (h : storeInv tab = true) (h1 : ch.isEmpty = false) (h2 : strictDesc ch = true) :
    storeInv (updateVar tab n ch) = true := by
  induction tab with
  | nil => simp [updateVar, storeInv, h1, h2]
  | cons hd tl ih =>
      obtain ⟨m, c⟩ := hd
      simp only [storeInv, List.all_cons, Bool.and_eq_true] at h
      by_cases hm : m = n
      · simp only [updateVar, if_pos hm, storeInv, List.all_cons, Bool.and_eq_true]
        exact ⟨by simp [h1, h2], h.2⟩
      · simp only [updateVar, if_neg hm, storeInv, List.all_cons, Bool.and_eq_true]
        exact ⟨h.1, ih h.2⟩

theorem storeInv_setVar {tab : Store} (n : String) (sid o : Nat) (arg : Option Int)
    (h : storeInv tab = true) : storeInv (setVar tab n sid o arg) = true := by
  unfold setVar
  cases hl : lookupVar tab n with
  | none => exact storeInv_updateVar n h rfl rfl
  | some ch =>
      cases ch with
      | nil => exact storeInv_updateVar n h rfl rfl
      | cons c rest =>
          by_cases hlt : c.subxactid < sid
          · have hd := (storeInv_lookup h hl).2
            have hch : strictDesc (mkCell sid o arg :: c :: rest) = true := by
              simp only [strictDesc, Bool.and_eq_true, mkCell]
              exact ⟨by simpa using hlt, hd⟩
            simp only [hlt, if_true]
            exact storeInv_updateVar n h rfl hch
          · simp only [hlt, if_false]
            exact storeInv_updateVar n h rfl rfl

theorem storeInv_subtxAbort {tab : Store} (S : Nat)
    (h : storeInv tab = true) : storeInv (subtxAbort tab S) = true := by
  induction tab with
  | nil => rfl
  | cons hd tl ih =>
      obtain ⟨m, ch⟩ := hd
      simp only [storeInv, List.all_cons, Bool.and_eq_true] at h
      simp only [subtxAbort, List.filterMap_cons]
      cases habort : abortChain S ch with
      | nil => exact ih h.2
      | cons c ch2 =>
          simp only [storeInv, List.all_cons, Bool.and_eq_true]
          refine ⟨?_, ih h.2⟩
          have hdesc : strictDesc (c :: ch2) = true := by
            rw [← habort]
            exact strictDesc_dropWhile _ h.1.2
          simp [hdesc]

/-! ### Claim theorems -/

/-- The state after the C1 scenario: in one top-level transaction `T`,
`set("x",v1)` at subtransaction `S1`, `set("x",v2)` at `S2`, `set("x",v3)`
at `S3`, then the abort event for `S2` is delivered. -/
def cascadeState (T S1 S2 S3 o : Nat) (v1 v2 v3 : Int) : TxnState :=
  subtransaction_callback
    ((set ((set ((set ⟨none, []⟩ T S1 (some "x") (some o) (some v1)).2)
        T S2 (some "x") (some o) (some v2)).2)
        T S3 (some "x") (some o) (some v3)).2)
    (.abortSub S2)

/-- C1: multi-level cascade rollback. After `set("x",v1)@S1`,
`set("x",v2)@S2`, `set("x",v3)@S3` with `S1 < S2 < S3` in one top-level
transaction, delivering subtransaction-abort(S2) leaves `get("x", d)`
returning `v1` and the variable's version chain at length exactly 1, even
though `S3` is skipped by the abort event. -/
theorem C1_multilevel_cascade_rollback (T S1 S2 S3 o : Nat) (v1 v2 v3 : Int)
    (d : Option Int) (h12 : S1 < S2) (h23 : S2 < S3) :
    get (cascadeState T S1 S2 S3 o v1 v2 v3) (some T) (some "x") (some o) d
        = .ok (some v1) ∧
    (lookupVar (cascadeState T S1 S2 S3 o v1 v2 v3).current_tab "x").map List.length
        = some 1 := by
  have h13 : S2 ≤ S3 := Nat.le_of_lt h23
  have hn : ¬ S2 ≤ S1 := Nat.not_le.mpr h12
  simp [cascadeState, set, setVar, lookupVar, updateVar, subtransaction_callback,
    subtxAbort, abortChain, get, getVar, mkCell, datumOf, h12, h23, h13, hn,
    List.dropWhile]

theorem C1_witness :
    get (cascadeState 7 1 2 3 23 10 20 30) (some 7) (some "x") (some 23) (some 99)
        = .ok (some 10) ∧
    (lookupVar (cascadeState 7 1 2 3 23 10 20 30).current_tab "x").map List.length
        = some 1 :=
  C1_multilevel_cascade_rollback 7 1 2 3 23 10 20 30 (some 99)
    (by decide) (by decide)

/-- A transactional store holding `x ↦ [v2 @ subxact 2, v1 @ subxact 1]`,
built by two `set` calls from increasing subtransactions. -/
def demoTab : Store := setVar (setVar [] "x" 1 23 (some 10)) "x" 2 23 (some 20)

/-- C2 counterexample: `demoTab` holds "x" with head written at
subtransaction 2 and one older entry below it. A further `set` from
subtransaction 2 takes the in-place overwrite branch (the head's id is not
strictly below the incoming id), yet the head's previous link does NOT
remain as it was: the chain below the head goes from one entry to none,
because the code resets `vvar->previous = NULL` in that branch. -/
theorem C2_counterexample :
    lookupVar demoTab "x" = some [mkCell 2 23 (some 20), mkCell 1 23 (some 10)] ∧
    ¬ (mkCell 2 23 (some 20)).subxactid < 2 ∧
    (lookupVar (setVar demoTab "x" 2 23 (some 30)) "x").map (List.drop 1)
      ≠ some [mkCell 1 23 (some 10)] := by
  refine ⟨by decide, by decide, by decide⟩

/-- C2 (amended): when `set` finds the name with a head entry whose
subxactId is not strictly below the incoming subtransaction id, it
overwrites the head in place — the new chain for that name is exactly the
single incoming cell (the previous link is reset to none, so older entries
become unreachable and the chain does not grow) — and every other variable
is left exactly as it was. -/
theorem C2_inplace_overwrite (tab : Store) (n m : String) (sid o : Nat)
    (arg : Option Int) (c : Cell) (rest : Chain)
    (hfind : lookupVar tab n = some (c :: rest))
    (hge : ¬ c.subxactid < sid) :
    lookupVar (setVar tab n sid o arg) n = some [mkCell sid o arg] ∧
    (m ≠ n → lookupVar (setVar tab n sid o arg) m = lookupVar tab m) := by
  constructor
  · simp [setVar, hfind, hge, lookupVar_updateVar_self]
  · intro hm
    simp only [setVar]
    exact lookupVar_updateVar_ne _ _ _ _ hm

theorem C2_witness :
    lookupVar (setVar demoTab "x" 2 24 (some 30)) "x" = some [mkCell 2 24 (some 30)] ∧
    ("y" ≠ "x" → lookupVar (setVar demoTab "x" 2 24 (some 30)) "y" = lookupVar demoTab "y") :=
  C2_inplace_overwrite demoTab "x" "y" 2 24 (some 30)
    (mkCell 2 23 (some 20)) [mkCell 1 23 (some 10)] (by decide) (by decide)

/-- C3: full invalidation. If a variable's entire version chain was written
at subtransaction ids `>= S` (it has no value predating the aborted
subtransaction), delivering subtransaction-abort(S) removes the variable
from the store entirely, and a subsequent `get` of that name returns the
caller-supplied default. (The key list of a store built by the code is
duplicate-free, as `hash_search` keys are unique.) -/
theorem C3_full_invalidation (tab : Store) (S o : Nat) (n : String)
    (d : Option Int) (ch : Chain)
    (hnd : (tab.map Prod.fst).Nodup)
    (hfind : lookupVar tab n = some ch)
    (hall : ∀ c ∈ ch, S ≤ c.subxactid) :
    lookupVar (subtxAbort tab S) n = none ∧
    getVar (subtxAbort tab S) n o d = .ok d := by
  have hmain : lookupVar (subtxAbort tab S) n = none := by
    induction tab with
    | nil => simp [lookupVar] at hfind
    | cons hd tl ih =>
        obtain ⟨m, ch0⟩ := hd
        simp only [List.map_cons, List.nodup_cons] at hnd
        simp only [lookupVar] at hfind
        simp only [subtxAbort, List.filterMap_cons]
        by_cases hm : m = n
        · rw [if_pos hm] at hfind
          have he : ch0 = ch := Option.some.inj hfind
          have hnil : abortChain S ch0 = [] := by
            rw [abortChain, List.dropWhile_eq_nil_iff]
            intro c hc
            simpa using hall c (he ▸ hc)
          rw [hnil]
          subst hm
          exact lookupVar_subtxAbort_of_not_mem tl m S hnd.1
        · rw [if_neg hm] at hfind
          cases habort : abortChain S ch0 with
          | nil => exact ih hnd.2 hfind
          | cons c ch2 =>
              simp only [lookupVar, if_neg hm]
              exact ih hnd.2 hfind
  exact ⟨hmain, by simp [getVar, hmain]⟩

theorem C3_witness :
    lookupVar (subtxAbort [("x", [mkCell 5 23 (some 1), mkCell 3 23 (some 2)])] 2) "x"
      = none ∧
    getVar (subtxAbort [("x", [mkCell 5 23 (some 1), mkCell 3 23 (some 2)])] 2)
      "x" 23 (some 42) = .ok (some 42) :=
  C3_full_invalidation [("x", [mkCell 5 23 (some 1), mkCell 3 23 (some 2)])] 2 23 "x"
    (some 42) [mkCell 5 23 (some 1), mkCell 3 23 (some 2)]
    (by decide) (by decide) (by decide)

/-- Transactional globals holding a stored SQL-null value of type oid 23
under "x", bound to top-level transaction 1. -/
def nullTx : TxnState :=
  { last_used_txnid := some 1,
    current_tab := [("x", [{ isnull := true, oid := 23, subxactid := 1, value := 0 }])] }

/-- C4 counterexample: "x" is stored (with type oid 23, value SQL null) and
is requested at the different type oid 25, yet neither `get` nor
`get_session` fails with TypeMismatch — both return SQL null, because the
code tests `isnull` before comparing types. The claim as stated (every
mismatching read of a stored name fails) is therefore false. -/
theorem C4_counterexample :
    lookupVar nullTx.current_tab "x"
      = some [{ isnull := true, oid := 23, subxactid := 1, value := 0 }] ∧
    (23 : Nat) ≠ 25 ∧
    get nullTx (some 1) (some "x") (some 25) (some 99) = .ok none ∧
    get_session ⟨nullTx, nullTx.current_tab⟩ (some "x") (some 25) (some 99) = .ok none := by
  refine ⟨by decide, by decide, rfl, rfl⟩

/-- C4 (amended): for every name stored in the resolved store whose head
value is non-null, a `get` (or `get_session`) requesting a type different
from the stored type fails with TypeMismatch, reporting both the stored
and the requested type; no value or default is returned. When the stored
head value is SQL null, the read returns SQL null without any type check. -/
theorem C4_type_mismatch (st : TxnState) (sess : Store) (t o : Nat) (n : String)
    (c c2 : Cell) (rest rest2 : Chain) (d d2 : Option Int)
    (hlast : st.last_used_txnid = some t)
    (hfind : lookupVar st.current_tab n = some (c :: rest))
    (hnn : c.isnull = false) (hne : c.oid ≠ o)
    (hfind2 : lookupVar sess n = some (c2 :: rest2))
    (hnn2 : c2.isnull = false) (hne2 : c2.oid ≠ o) :
    get st (some t) (some n) (some o) d = .error (.typeMismatch c.oid o) ∧
    get_session ⟨st, sess⟩ (some n) (some o) d2 = .error (.typeMismatch c2.oid o) := by
  constructor
  · simp [get, hlast, getVar, hfind, hnn, hne]
  · simp [get_session, getVar, hfind2, hnn2, hne2]

theorem C4_witness :
    get ⟨some 1, [("x", [mkCell 1 23 (some 5)])]⟩ (some 1) (some "x") (some 25) (some 99)
      = .error (.typeMismatch 23 25) ∧
    get_session ⟨⟨some 1, [("x", [mkCell 1 23 (some 5)])]⟩, [("x", [mkCell 0 23 (some 6)])]⟩
      (some "x") (some 25) (some 99) = .error (.typeMismatch 23 25) :=
  C4_type_mismatch ⟨some 1, [("x", [mkCell 1 23 (some 5)])]⟩
    [("x", [mkCell 0 23 (some 6)])] 1 25 "x"
    (mkCell 1 23 (some 5)) (mkCell 0 23 (some 6)) [] [] (some 99) (some 99)
    rfl rfl rfl (by decide) rfl rfl (by decide)

/-- A session store holding a single variable "s". -/
def sessDemo : Store := setSessionVar [] "s" 23 (some 1) []

/-- C5 counterexample: overwriting the existing session variable "s" leaves
the new head's `previous` field uninitialized (the C code never assigns it
in the found branch); if the stale bits denote a non-empty chain, the
stored chain length is not 1. The claimed invariant (chain length exactly
1 after every sequence of session operations) therefore does not hold of
the code. -/
theorem C5_counterexample :
    (lookupVar (setSessionVar sessDemo "s" 23 (some 2) [mkCell 0 23 (some 7)]) "s").map
      List.length ≠ some 1 := by
  decide

/-- C5 (amended): a freshly created session variable's chain is the single
incoming entry (its `previous` is set to none); overwriting an existing
name installs a fresh head whose `previous` field is left uninitialized —
but that field is never consulted: the observable result of any subsequent
read of the name is determined by the head alone, independently of the
uninitialized bits. -/
theorem C5_session_single_entry (tab : Store) (n : String) (o : Nat)
    (arg : Option Int) (junk : Chain) :
    (lookupVar tab n = none →
      lookupVar (setSessionVar tab n o arg junk) n = some [mkCell 0 o arg]) ∧
    (∀ o2 d, getVar (setSessionVar tab n o arg junk) n o2 d
           = getVar (setSessionVar tab n o arg []) n o2 d) := by
  constructor
  · intro habs
    simp [setSessionVar, habs, lookupVar_updateVar_self]
  · intro o2 d
    cases hl : lookupVar tab n with
    | none => simp [setSessionVar, hl]
    | some ch =>
        simp [setSessionVar, hl, getVar, lookupVar_updateVar_self]

theorem C5_witness :
    lookupVar (setSessionVar [] "s" 23 (some 5) [mkCell 0 9 none]) "s"
      = some [mkCell 0 23 (some 5)] :=
  (C5_session_single_entry [] "s" 23 (some 5) [mkCell 0 9 none]).1 rfl

/-- C6: in every state whose store satisfies the strictly-decreasing chain
invariant (walking any variable's chain from head through previous links
visits strictly decreasing subtransaction ids, over non-empty chains),
both a `set` — at any incoming subtransaction id, non-decreasing or not —
and a subtransaction-abort unwind preserve the invariant; the empty store
of a fresh transaction satisfies it, so every reachable store does. -/
theorem C6_strict_descent_invariant (tab : Store) (n : String) (sid o S : Nat)
    (arg : Option Int) (h : storeInv tab = true) :
    storeInv ([] : Store) = true ∧
    storeInv (setVar tab n sid o arg) = true ∧
    storeInv (subtxAbort tab S) = true :=
  ⟨rfl, storeInv_setVar n sid o arg h, storeInv_subtxAbort S h⟩

theorem C6_witness :
    storeInv ([] : Store) = true ∧
    storeInv (setVar [("x", [mkCell 4 23 (some 1), mkCell 2 23 (some 0)])] "x" 4 23 (some 9)) = true ∧
    storeInv (subtxAbort [("x", [mkCell 4 23 (some 1), mkCell 2 23 (some 0)])] 3) = true :=
  C6_strict_descent_invariant [("x", [mkCell 4 23 (some 1), mkCell 2 23 (some 0)])]
    "x" 4 23 3 (some 9) (by decide)

/-- C7: `get(name, default)` returns the caller-supplied default whenever
no transaction id is assigned, or the bound transaction differs from the
active one, or the name is unknown in the current store; in particular,
when the globals are still bound to a previous transaction `t` and a new
top-level transaction `t2 ≠ t` performs `get` before any `set`, the
default comes back even if the name was set in the prior transaction. -/
theorem C7_default_fallback (st : TxnState) (n : String) (o : Nat) (d : Option Int) :
    get st none (some n) (some o) d = .ok d ∧
    (∀ t, st.last_used_txnid ≠ some t → get st (some t) (some n) (some o) d = .ok d) ∧
    (∀ t, lookupVar st.current_tab n = none → get st (some t) (some n) (some o) d = .ok d) ∧
    (∀ t t2, st.last_used_txnid = some t → t ≠ t2 →
      get st (some t2) (some n) (some o) d = .ok d) := by
  refine ⟨rfl, ?_, ?_, ?_⟩
  · intro t ht
    simp [get, ht]
  · intro t habs
    by_cases ht : st.last_used_txnid = some t
    · simp [get, ht, getVar, habs]
    · simp [get, ht]
  · intro t t2 ht hne
    have : st.last_used_txnid ≠ some t2 := by
      rw [ht]
      exact fun e => hne (Option.some.inj e)
    simp [get, this]

theorem C7_witness :
    get ⟨some 3, [("x", [mkCell 1 23 (some 5)])]⟩ (some 4) (some "x") (some 23) (some 9)
      = .ok (some 9) :=
  (C7_default_fallback ⟨some 3, [("x", [mkCell 1 23 (some 5)])]⟩ "x" 23 (some 9)).2.2.2
    3 4 rfl (by decide)

/-- C8: session bypass. The subtransaction lifecycle callback never touches
`session_tab` — for any event. In particular, after `set_session(n, v1)`,
opening a subtransaction (no state change on its own), `set_session(n, v2)`
and then aborting the subtransaction, `get_session(n, d)` still returns
`v2`, whatever the uninitialized bits of the overwritten nodes denote. -/
theorem C8_session_bypass (g : GlobalState) (ev : SubXactEvent) (S o : Nat)
    (n : String) (v1 v2 : Int) (j1 j2 : Chain) (d : Option Int) :
    (subtransaction_callback_g g ev).session_tab = g.session_tab ∧
    get_session
      (subtransaction_callback_g
        ((set_session ((set_session g (some n) (some o) (some v1) j1).2)
            (some n) (some o) (some v2) j2).2)
        (.abortSub S))
      (some n) (some o) d = .ok (some v2) := by
  refine ⟨rfl, ?_⟩
  obtain ⟨rest, hr⟩ := lookupVar_setSessionVar_self
    (setSessionVar g.session_tab n o (some v1) j1) n o (some v2) j2
  simp [get_session, set_session, subtransaction_callback_g, subtransaction_callback,
    getVar, hr, mkCell, datumOf]

/-- C9 (implicit): for every non-null name with an inferrable value type,
`set(name, v)` and `set_session(name, v)` return the value just stored when
`v` is non-null; when the value argument is SQL null they record a
null-valued box under the name — so a later `get`/`get_session` of that
name returns SQL null, not the caller's default, at any requested type —
and themselves return SQL null. -/
theorem C9_set_return (st : TxnState) (g : GlobalState) (txnid sid o o2 : Nat)
    (n : String) (v : Int) (junk : Chain) (d d2 : Option Int) :
    (set st txnid sid (some n) (some o) (some v)).1 = .ok (some v) ∧
    (set_session g (some n) (some o) (some v) junk).1 = .ok (some v) ∧
    (set st txnid sid (some n) (some o) none).1 = .ok none ∧
    (set_session g (some n) (some o) none junk).1 = .ok none ∧
    get (set st txnid sid (some n) (some o) none).2 (some txnid) (some n) (some o2) d
      = .ok none ∧
    get_session (set_session g (some n) (some o) none junk).2 (some n) (some o2) d2
      = .ok none := by
  refine ⟨rfl, rfl, rfl, rfl, ?_, ?_⟩
  · by_cases ht : st.last_used_txnid = some txnid
    · obtain ⟨rest, hr⟩ := lookupVar_setVar_self st.current_tab n sid o (none : Option Int)
      simp [set, get, ht, getVar, hr, mkCell, datumOf]
    · obtain ⟨rest, hr⟩ := lookupVar_setVar_self ([] : Store) n sid o (none : Option Int)
      simp [set, get, ht, getVar, hr, mkCell, datumOf]
  · obtain ⟨rest, hr⟩ := lookupVar_setSessionVar_self g.session_tab n o (none : Option Int) junk
    simp [set_session, get_session, getVar, hr, mkCell, datumOf]

/-- C10 (implicit): reads are pure. `get` and `get_session`, with the
globals threaded through every branch of the code, return the state they
were given unchanged in every case — value, SQL null, default, or error —
and their result agrees with the read-only semantics. -/
theorem C10_get_pure (g : GlobalState) (txnid : Option Nat) (name : Option String)
    (oid : Option Nat) (d : Option Int) :
    (get_full g txnid name oid d).2 = g ∧
    (get_session_full g name oid d).2 = g ∧
    (get_full g txnid name oid d).1 = get g.txn txnid name oid d ∧
    (get_session_full g name oid d).1 = get_session g name oid d := by
  cases name with
  | none => exact ⟨rfl, rfl, rfl, rfl⟩
  | some n =>
      cases oid with
      | none => exact ⟨rfl, rfl, rfl, rfl⟩
      | some o =>
          cases txnid with
          | none => exact ⟨rfl, rfl, rfl, rfl⟩
          | some t =>
              by_cases ht : g.txn.last_used_txnid ≠ some t
              · exact ⟨by simp [get_full, ht], rfl, by simp [get_full, get, ht], rfl⟩
              · exact ⟨by simp [get_full, ht], rfl, by simp [get_full, get, ht], rfl⟩

end OmniVar
